import Mathlib

/-!
# easy-firebase-ts — verification of the retry, messaging and manager layers

Shallow embedding of the TypeScript sources of `easy-firebase-ts`:

* `FunctionsService.callFunctionWithRetry` (functions service, retry with
  exponential backoff);
* `PubSubService` (untyped variant: `publishMessage`, `parseMessageData`,
  `subscribeToTopic`, `unsubscribe`; typed variant in
  `src/pubsub/pubsub-service.ts`: `createTopic`, `createSubscription`,
  `subscribeToTopic`'s `messageHandler`);
* `FirebaseManager` (lazy facade construction, `cleanup`, `isInitialized`).

JavaScript machine integers, promises and the platform SDKs are modelled
explicitly: asynchronous waiting becomes a recorded list of delay durations,
thrown exceptions become `Except`/sum results, and the JSON builtins
(`JSON.stringify` / `JSON.parse`) are modelled by an executable printer and
parser over a JSON value type, with a proved round-trip.
-/

namespace EasyFirebase

/-! ## FunctionsService (src/functions/functions-service.ts)

`callFunctionWithRetry` resolves its retry budget as
`options?.maxRetries || this.config.maxRetries || 3` — JavaScript `||`
falls through on `0` and `undefined` alike — then loops
`for (attempt = 0; attempt <= maxRetries; attempt++)`, rethrowing
immediately on the non-retryable codes, rethrowing on the last attempt, and
otherwise sleeping `min(1000 * 2^attempt, 10000)` milliseconds. -/

/-- `FunctionsError` as thrown by `handleFunctionError`: a message, a
machine-readable code (the platform code with the `functions/` prefix
stripped, or `"unknown-error"`). -/
structure FunctionsError where
  message : String
  code : String
deriving DecidableEq, Repr

/-- Result of one underlying `callFunction` attempt: either a result value or
a thrown `FunctionsError` (every error leaving `callFunction` has been
wrapped by `handleFunctionError`). -/
inductive FnOutcome (A : Type) where
  | ok (a : A)
  | err (e : FunctionsError)
deriving DecidableEq, Repr

/-- The fixed non-retryable code set of `callFunctionWithRetry`:
`['permission-denied', 'invalid-argument', 'not-found']`. -/
def nonRetryableCodes : List String :=
  ["permission-denied", "invalid-argument", "not-found"]

/-- JavaScript `x || y` on an optional number: `undefined` and `0` are falsy
and fall through to `y`. -/
def jsOrNat (x : Option Nat) (y : Nat) : Nat :=
  match x with
  | none => y
  | some n => if n = 0 then y else n

/-- `options?.maxRetries || this.config.maxRetries || 3` — the effective
retry budget of `callFunctionWithRetry`. -/
def effectiveMaxRetries (optMaxRetries cfgMaxRetries : Option Nat) : Nat :=
  jsOrNat optMaxRetries (jsOrNat cfgMaxRetries 3)

/-- `const backoffTime = Math.min(1000 * Math.pow(2, attempt), 10000)`. -/
def backoffTime (attempt : Nat) : Nat :=
  min (1000 * 2 ^ attempt) 10000

/-- Trace of one `callFunctionWithRetry` run: final outcome, number of
underlying `callFunction` attempts, and the list of backoff delays awaited
(in order). -/
structure RetryTrace (A : Type) where
  outcome : FnOutcome A
  attempts : Nat
  delays : List Nat
deriving DecidableEq, Repr

/-- The retry loop of `callFunctionWithRetry`, from a given `attempt` with
`remaining = maxRetries - attempt` attempts still allowed after this one.
`call k` is the outcome of the `k`-th underlying `callFunction` attempt.
Mirrors the source: return on success; rethrow at once on a non-retryable
code; rethrow when `attempt === maxRetries`; otherwise sleep
`backoffTime attempt` and continue. -/
def retryGo {A : Type} (call : Nat → FnOutcome A) :
    Nat → Nat → RetryTrace A
  | remaining, attempt =>
    match call attempt with
    | .ok a => ⟨.ok a, 1, []⟩
    | .err e =>
      if e.code ∈ nonRetryableCodes then ⟨.err e, 1, []⟩
      else
        match remaining with
        | 0 => ⟨.err e, 1, []⟩
        | r + 1 =>
          let t := retryGo call r (attempt + 1)
          ⟨t.outcome, t.attempts + 1, backoffTime attempt :: t.delays⟩

/-- `callFunctionWithRetry(functionName, data, options)` with the retry
budget resolved from the per-call options and the service config. -/
def callFunctionWithRetry {A : Type} (call : Nat → FnOutcome A)
    (optMaxRetries cfgMaxRetries : Option Nat) : RetryTrace A :=
  retryGo call (effectiveMaxRetries optMaxRetries cfgMaxRetries) 0

/-! ## JSON values and the `JSON.stringify` / `JSON.parse` builtins

`publishMessage` serializes with `JSON.stringify` and `parseMessageData` /
the typed `messageHandler` deserialize with `JSON.parse`. These platform
builtins are modelled executably: a JSON value type (numbers restricted to
integer numerals, as produced by integer payloads; strings escaped for `"`
and `\\`; compact printing without insignificant whitespace), a printer,
and a fueled recursive-descent parser over `List Char`. -/


mutual
inductive Json where
  | null
  | bool (b : Bool)
  | num (n : Int)
  | str (s : String)
  | arr (elems : JsonArr)
  | obj (mems : JsonObj)
deriving DecidableEq, Repr
inductive JsonArr where
  | nil
  | cons (hd : Json) (tl : JsonArr)
deriving DecidableEq, Repr
inductive JsonObj where
  | nil
  | cons (key : String) (val : Json) (tl : JsonObj)
deriving DecidableEq, Repr
end

def digitChar (d : Nat) : Char := Char.ofNat (48 + d)

def natDigitsAux : Nat → Nat → List Char
  | 0, _ => []
  | fuel + 1, n =>
    if n < 10 then [digitChar n]
    else natDigitsAux fuel (n / 10) ++ [digitChar (n % 10)]

def natDigits (n : Nat) : List Char := natDigitsAux (n + 1) n

def intChars : Int → List Char
  | .ofNat n => natDigits n
  | .negSucc m => '-' :: natDigits (m + 1)

def escapeChar (c : Char) : List Char :=
  if c = '"' ∨ c = '\\' then ['\\', c] else [c]

def escapeChars (cs : List Char) : List Char := (cs.map escapeChar).flatten

/-- The characters of the literal `null`. -/
def nullLit : List Char := ['n', 'u', 'l', 'l']

/-- The characters of the literal `true`. -/
def trueLit : List Char := ['t', 'r', 'u', 'e']

/-- The characters of the literal `false`. -/
def falseLit : List Char := ['f', 'a', 'l', 's', 'e']

mutual
def printJson : Json → List Char
  | .null => nullLit
  | .bool true => trueLit
  | .bool false => falseLit
  | .num n => intChars n
  | .str s => '"' :: (escapeChars s.data ++ ['"'])
  | .arr es => '[' :: (printArr es ++ [']'])
  | .obj ms => '{' :: (printObj ms ++ ['}'])
def printArr : JsonArr → List Char
  | .nil => []
  | .cons v .nil => printJson v
  | .cons v (.cons w tl) => printJson v ++ ',' :: printArr (.cons w tl)
def printObj : JsonObj → List Char
  | .nil => []
  | .cons k v .nil => '"' :: (escapeChars k.data ++ '"' :: ':' :: printJson v)
  | .cons k v (.cons k2 v2 tl) =>
    ('"' :: (escapeChars k.data ++ '"' :: ':' :: printJson v)) ++
      ',' :: printObj (.cons k2 v2 tl)
end

def charToDigit? (c : Char) : Option Nat :=
  if '0' ≤ c ∧ c ≤ '9' then some (c.toNat - 48) else none

def dval (c : Char) : Nat := c.toNat - 48

def takeDigits : List Char → Nat → Nat × List Char
  | [], acc => (acc, [])
  | c :: cs, acc =>
    match charToDigit? c with
    | some d => takeDigits cs (acc * 10 + d)
    | none => (acc, c :: cs)

def parseNat1 : List Char → Option (Nat × List Char)
  | [] => none
  | c :: cs =>
    match charToDigit? c with
    | some d => some (takeDigits cs d)
    | none => none

def unescapeChar (c : Char) : Char :=
  if c = 'n' then '\n' else if c = 't' then '\t' else if c = 'r' then '\r' else c

def parseStringBody : List Char → Option (List Char × List Char)
  | [] => none
  | c :: rest =>
    if c = '"' then some ([], rest)
    else if c = '\\' then
      match rest with
      | [] => none
      | e :: rest2 =>
        match parseStringBody rest2 with
        | some (s, r) => some (unescapeChar e :: s, r)
        | none => none
    else
      match parseStringBody rest with
      | some (s, r) => some (c :: s, r)
      | none => none

def dropLit : List Char → List Char → Option (List Char)
  | [], cs => some cs
  | _ :: _, [] => none
  | p :: ps, c :: cs => if c = p then dropLit ps cs else none

def parseValueStep (pElems : List Char → Option (JsonArr × List Char))
    (pMembers : List Char → Option (JsonObj × List Char)) :
    List Char → Option (Json × List Char)
  | [] => none
  | c :: rest =>
    if c = 'n' then
      match dropLit ['u', 'l', 'l'] rest with
      | some r => some (.null, r)
      | none => none
    else if c = 't' then
      match dropLit ['r', 'u', 'e'] rest with
      | some r => some (.bool true, r)
      | none => none
    else if c = 'f' then
      match dropLit ['a', 'l', 's', 'e'] rest with
      | some r => some (.bool false, r)
      | none => none
    else if c = '"' then
      match parseStringBody rest with
      | some (s, r) => some (.str (String.mk s), r)
      | none => none
    else if c = '-' then
      match parseNat1 rest with
      | some (n, r) => some (.num (-(n : Int)), r)
      | none => none
    else if (charToDigit? c).isSome then
      match parseNat1 (c :: rest) with
      | some (n, r) => some (.num (n : Int), r)
      | none => none
    else if c = '[' then
      match rest with
      | [] => none
      | c2 :: r2 =>
        if c2 = ']' then some (.arr .nil, r2)
        else
          match pElems (c2 :: r2) with
          | some (es, r3) => some (.arr es, r3)
          | none => none
    else if c = '{' then
      match rest with
      | [] => none
      | c2 :: r2 =>
        if c2 = '}' then some (.obj .nil, r2)
        else
          match pMembers (c2 :: r2) with
          | some (ms, r3) => some (.obj ms, r3)
          | none => none
    else none

def parseElemsStep (pValue : List Char → Option (Json × List Char))
    (pElems : List Char → Option (JsonArr × List Char))
    (cs : List Char) : Option (JsonArr × List Char) :=
  match pValue cs with
  | none => none
  | some (v, r) =>
    match r with
    | [] => none
    | c :: r2 =>
      if c = ',' then
        match pElems r2 with
        | some (es, r3) => some (.cons v es, r3)
        | none => none
      else if c = ']' then some (.cons v .nil, r2)
      else none

def parseMembersStep (pValue : List Char → Option (Json × List Char))
    (pMembers : List Char → Option (JsonObj × List Char)) :
    List Char → Option (JsonObj × List Char)
  | [] => none
  | c :: rest =>
    if c = '"' then
      match parseStringBody rest with
      | none => none
      | some (k, r) =>
        match r with
        | [] => none
        | c2 :: r2 =>
          if c2 = ':' then
            match pValue r2 with
            | none => none
            | some (v, r3) =>
              match r3 with
              | [] => none
              | c3 :: r4 =>
                if c3 = ',' then
                  match pMembers r4 with
                  | some (ms, r5) => some (.cons (String.mk k) v ms, r5)
                  | none => none
                else if c3 = '}' then some (.cons (String.mk k) v .nil, r4)
                else none
          else none
    else none

mutual
def parseValue : Nat → List Char → Option (Json × List Char)
  | 0, _ => none
  | fuel + 1, cs => parseValueStep (parseElems fuel) (parseMembers fuel) cs
def parseElems : Nat → List Char → Option (JsonArr × List Char)
  | 0, _ => none
  | fuel + 1, cs => parseElemsStep (parseValue fuel) (parseElems fuel) cs
def parseMembers : Nat → List Char → Option (JsonObj × List Char)
  | 0, _ => none
  | fuel + 1, cs => parseMembersStep (parseValue fuel) (parseMembers fuel) cs
end

def jsonParse (cs : List Char) : Option Json :=
  match parseValue (cs.length + 1) cs with
  | some (v, []) => some v
  | _ => none

/-- The continuation after a printed number must not begin with a digit
(greedy digit consumption stops there). -/
def digitFree : List Char → Bool
  | [] => true
  | c :: _ => (charToDigit? c).isNone

mutual
def weight : Json → Nat
  | .null => 1
  | .bool _ => 1
  | .num _ => 1
  | .str _ => 1
  | .arr es => 1 + weightArr es
  | .obj ms => 1 + weightObj ms
def weightArr : JsonArr → Nat
  | .nil => 0
  | .cons v tl => 1 + max (weight v) (weightArr tl)
def weightObj : JsonObj → Nat
  | .nil => 0
  | .cons _ v tl => 1 + max (weight v) (weightObj tl)
end


/-! ## Untyped PubSubService (pubsub-service draft, `src/unnamed/part_002`)

`publishMessage(topicName, data, attributes)` converts
`typeof data === 'string' ? Buffer.from(data) : Buffer.from(JSON.stringify(data))`;
`parseMessageData(message)` attempts `JSON.parse` on the message bytes and
returns the raw string on parse failure; `subscribeToTopic` registers the
handle in `activeSubscriptions`; `unsubscribe` throws when the name is not
registered and otherwise removes all listeners and deletes the entry. -/

namespace Untyped

/-- The untyped service's `PubSubError` payload: message, optional topic,
optional code, and whether an original error was attached. -/
structure PubSubError where
  message : String
  topic : Option String
  code : Option String
  hasOriginalError : Bool
deriving DecidableEq, Repr

/-- Argument of the untyped `publishMessage`: `data: string | object`. -/
inductive PublishData where
  | str (s : String)
  | obj (j : Json)

/-- Bytes handed to `topic.publish`: a string is encoded as-is
(`Buffer.from(data)`), anything else is JSON-stringified
(`Buffer.from(JSON.stringify(data))`). -/
def publishMessageData : PublishData → List Char
  | .str s => s.data
  | .obj j => printJson j

/-- Result of `parseMessageData`: the `JSON.parse` value on success, the raw
string on parse failure. -/
inductive Parsed where
  | json (j : Json)
  | raw (s : List Char)
deriving DecidableEq, Repr

/-- `PubSubService.parseMessageData`: `try { return JSON.parse(data) }
catch { return data }`. -/
def parseMessageData (data : List Char) : Parsed :=
  match jsonParse data with
  | some v => .json v
  | none => .raw data

/-- A stored `Subscription` handle with its registered event listeners
(`subscribeToTopic` registers a `message` and an `error` listener). -/
structure StoredSubscription where
  name : String
  listeners : Nat
deriving DecidableEq, Repr

/-- The `activeSubscriptions: Map<string, Subscription>` registry. -/
structure PubSubRegistry where
  activeSubscriptions : List (String × StoredSubscription)
deriving DecidableEq, Repr

/-- Registry effect of `subscribeToTopic`: store the handle (with its two
listeners) under the subscription name (`Map.set` semantics). -/
def subscribeToTopic (st : PubSubRegistry) (subscriptionName : String) :
    PubSubRegistry :=
  ⟨(subscriptionName, ⟨subscriptionName, 2⟩) ::
    st.activeSubscriptions.filter (fun q => !(q.1 == subscriptionName))⟩

/-- `PubSubService.unsubscribe`: look up the handle; if absent, the inner
`throw new Error(...)` is caught and rethrown as a `PubSubError` carrying
that message; otherwise `removeAllListeners()` on the handle and delete the
registry entry. The returned pair is (handle after listener removal, new
registry). -/
def unsubscribe (st : PubSubRegistry) (subscriptionName : String) :
    Except PubSubError (StoredSubscription × PubSubRegistry) :=
  match st.activeSubscriptions.find? (fun p => p.1 == subscriptionName) with
  | none =>
    .error ⟨s!"No active subscription named {subscriptionName} found",
      none, none, true⟩
  | some p =>
    .ok ({ p.2 with listeners := 0 },
      ⟨st.activeSubscriptions.filter (fun q => !(q.1 == subscriptionName))⟩)

end Untyped

/-! ## Typed PubSubService (`src/pubsub/pubsub-service.ts`)

`createTopic` / `createSubscription` call the transport and, on a thrown
`Error` whose message contains `ALREADY_EXISTS`, return a fresh handle to
the existing resource; any other failure is rethrown as a `PubSubError`
with a fixed code. `subscribeToTopic`'s `messageHandler` JSON-parses the
message data, races the handler against the optional timeout, auto-acks on
success when configured, nacks-and-rethrows on handler failure in the inner
catch, and logs-and-nacks in the outer catch. -/

namespace Typed

/-- The typed service's `PubSubError`: message, machine code, and whether an
original `Error` was attached. -/
structure PubSubError where
  message : String
  code : String
  hasOriginalError : Bool
deriving DecidableEq, Repr

/-- A `Topic` handle (`this.pubsub.topic(name)`). -/
structure TopicHandle where
  name : String
deriving DecidableEq, Repr

/-- A `Subscription` handle (`this.pubsub.subscription(name)`). -/
structure SubscriptionHandle where
  name : String
deriving DecidableEq, Repr

/-- Outcome of the transport-side creation call (`pubsub.createTopic` /
`topic.createSubscription`): a handle, or a thrown value with its message
and whether it is an `Error` instance. -/
inductive TransportResult (H : Type) where
  | ok (h : H)
  | threw (isError : Bool) (msg : String)
deriving DecidableEq, Repr

/-- Substring containment on character lists (for `String.includes`). -/
def hasSubstring (needle : List Char) : List Char → Bool
  | [] => needle.isEmpty
  | c :: rest => needle.isPrefixOf (c :: rest) || hasSubstring needle rest

/-- `error.message.includes('ALREADY_EXISTS')`. -/
def containsAlreadyExists (msg : String) : Bool :=
  hasSubstring "ALREADY_EXISTS".toList msg.toList

/-- `PubSubService.createTopic`: on success return the created topic; on an
`ALREADY_EXISTS` `Error` return `this.pubsub.topic(topicName)`; otherwise
rethrow as `PubSubError` with code `topic-creation-failed`. -/
def createTopic (topicName : String)
    (transport : TransportResult TopicHandle) :
    Except PubSubError TopicHandle :=
  match transport with
  | .ok t => .ok t
  | .threw isErr msg =>
    if isErr && containsAlreadyExists msg then .ok ⟨topicName⟩
    else
      .error ⟨s!"Failed to create topic {topicName}",
        "topic-creation-failed", isErr⟩

/-- `PubSubService.createSubscription`: same shape, code
`subscription-creation-failed`, returning
`this.pubsub.subscription(subscriptionName)` when it already exists. -/
def createSubscription (topicName subscriptionName : String)
    (transport : TransportResult SubscriptionHandle) :
    Except PubSubError SubscriptionHandle :=
  match transport with
  | .ok s => .ok s
  | .threw isErr msg =>
    if isErr && containsAlreadyExists msg then .ok ⟨subscriptionName⟩
    else
      .error
        ⟨s!"Failed to create subscription {subscriptionName} for topic {topicName}",
         "subscription-creation-failed", isErr⟩

/-- How one handler invocation ends: the handler's promise wins the race and
resolves, or it fails (a throw/rejection, or the processing timeout fires —
the race rejects either way). -/
inductive HandlerResult where
  | ok
  | fail
deriving DecidableEq, Repr

/-- Observable effects of one `messageHandler` run on one message. -/
structure MsgEffects where
  acks : Nat
  nacks : Nat
  handlerInvoked : Bool
  loggedError : Bool
  rethrownToTransport : Bool
deriving DecidableEq, Repr

/-- The `messageHandler` closure of the typed `subscribeToTopic`, on one
delivered message: parse `JSON.parse(message.data.toString())`; on parse
failure the outer catch logs and nacks. Otherwise run the handler raced
against the timeout; on success ack iff `autoAcknowledge`; on failure the
inner catch nacks and rethrows, and the outer catch logs and nacks again.
Nothing is rethrown into the transport's event mechanism. -/
def messageHandler (data : List Char) (autoAcknowledge : Bool)
    (handler : Json → HandlerResult) : MsgEffects :=
  match jsonParse data with
  | none => ⟨0, 1, false, true, false⟩
  | some v =>
    match handler v with
    | .ok => ⟨if autoAcknowledge then 1 else 0, 0, true, false, false⟩
    | .fail => ⟨0, 2, true, true, false⟩

end Typed

/-! ## FirebaseManager (`src/core/firebase-manager.ts`)

The manager lazily constructs and caches one instance of each service;
`cleanup()` nulls every cached instance and clears `initialized`. Object
identities are modelled by allocation order: every `new ...` takes the next
fresh id from a counter, so reference equality is id equality. -/

/-- Manager state: fresh-id counter plus the nullable cached instances and
the `initialized` flag. The `FirebaseApp` created in the constructor is
id `0`. -/
structure ManagerState where
  nextId : Nat
  firestoreInstance : Option Nat
  firestoreService : Option Nat
  functionsService : Option Nat
  pubSubService : Option Nat
  initialized : Bool
deriving DecidableEq, Repr

/-- `new FirebaseManager(config)`: initializes the app (id 0), all service
caches null, `initialized = true`. -/
def mkFirebaseManager : ManagerState :=
  ⟨1, none, none, none, none, true⟩

/-- `getFirestore()`: return the cached instance or create and cache a new
one. -/
def getFirestore (st : ManagerState) : Nat × ManagerState :=
  match st.firestoreInstance with
  | some i => (i, st)
  | none =>
    (st.nextId,
     { st with firestoreInstance := some st.nextId, nextId := st.nextId + 1 })

/-- `getFirestoreService()`: return the cached service or build one from
`getFirestore()` and cache it. -/
def getFirestoreService (st : ManagerState) : Nat × ManagerState :=
  match st.firestoreService with
  | some i => (i, st)
  | none =>
    let p := getFirestore st
    (p.2.nextId,
     { p.2 with firestoreService := some p.2.nextId, nextId := p.2.nextId + 1 })

/-- `getFunctionsService()`: return the cached service or construct and
cache a new one. -/
def getFunctionsService (st : ManagerState) : Nat × ManagerState :=
  match st.functionsService with
  | some i => (i, st)
  | none =>
    (st.nextId,
     { st with functionsService := some st.nextId, nextId := st.nextId + 1 })

/-- `getPubSubService()`: return the cached service or construct and cache a
new one. -/
def getPubSubService (st : ManagerState) : Nat × ManagerState :=
  match st.pubSubService with
  | some i => (i, st)
  | none =>
    (st.nextId,
     { st with pubSubService := some st.nextId, nextId := st.nextId + 1 })

/-- `cleanup()`: null every cached instance and clear `initialized`. -/
def cleanup (st : ManagerState) : ManagerState :=
  { st with firestoreInstance := none, firestoreService := none,
            functionsService := none, pubSubService := none,
            initialized := false }

/-- `isInitialized()`. -/
def isInitialized (st : ManagerState) : Bool := st.initialized

/-- Well-formedness of the allocation model: every cached id was allocated
below the counter. Holds for `mkFirebaseManager` and is preserved by every
operation. -/
def managerWF (st : ManagerState) : Bool :=
  st.firestoreInstance.all (· < st.nextId) &&
  st.firestoreService.all (· < st.nextId) &&
  st.functionsService.all (· < st.nextId) &&
  st.pubSubService.all (· < st.nextId)

/-! ## Parser lemmas -/

theorem parseValue_succ (fuel : Nat) (cs : List Char) :
    parseValue (fuel + 1) cs =
      parseValueStep (parseElems fuel) (parseMembers fuel) cs := rfl

theorem parseElems_succ (fuel : Nat) (cs : List Char) :
    parseElems (fuel + 1) cs =
      parseElemsStep (parseValue fuel) (parseElems fuel) cs := rfl

theorem parseMembers_succ (fuel : Nat) (cs : List Char) :
    parseMembers (fuel + 1) cs =
      parseMembersStep (parseValue fuel) (parseMembers fuel) cs := rfl

theorem charToDigit?_eq_some {c : Char} (h : (charToDigit? c).isSome) :
    charToDigit? c = some (dval c) := by
  unfold charToDigit? at h ⊢
  by_cases hc : '0' ≤ c ∧ c ≤ '9'
  · rw [if_pos hc]; rfl
  · rw [if_neg hc] at h; simp at h

theorem takeDigits_spec (ds : List Char) (hds : ∀ c ∈ ds, (charToDigit? c).isSome)
    (rest : List Char) (hrest : digitFree rest = true) (acc : Nat) :
    takeDigits (ds ++ rest) acc =
      (List.foldl (fun a c => a * 10 + dval c) acc ds, rest) := by
  induction ds generalizing acc with
  | nil =>
    cases rest with
    | nil => rfl
    | cons c cs =>
      simp only [digitFree, Option.isNone_iff_eq_none] at hrest
      simp [takeDigits, hrest]
  | cons c ds ih =>
    have hc := charToDigit?_eq_some (hds c (by simp))
    simp only [List.cons_append, takeDigits, hc, List.foldl_cons]
    exact ih (fun x hx => hds x (by simp [hx])) (acc * 10 + dval c)

theorem charToDigit?_digitChar {d : Nat} (h : d < 10) :
    charToDigit? (digitChar d) = some d := by
  interval_cases d <;> decide

theorem natDigitsAux_digits {fuel n : Nat} (h : n < fuel) :
    ∀ c ∈ natDigitsAux fuel n, (charToDigit? c).isSome := by
  induction fuel generalizing n with
  | zero => omega
  | succ fuel ih =>
    intro c hc
    unfold natDigitsAux at hc
    by_cases h10 : n < 10
    · rw [if_pos h10] at hc
      simp at hc
      subst hc
      rw [charToDigit?_digitChar h10]
      rfl
    · rw [if_neg h10] at hc
      rcases List.mem_append.mp hc with h1 | h2
      · exact ih (by omega) c h1
      · simp at h2
        subst h2
        rw [charToDigit?_digitChar (Nat.mod_lt _ (by omega))]
        rfl

theorem natDigitsAux_ne_nil {fuel n : Nat} (h : n < fuel) :
    natDigitsAux fuel n ≠ [] := by
  cases fuel with
  | zero => omega
  | succ fuel =>
    unfold natDigitsAux
    by_cases h10 : n < 10
    · simp [h10]
    · rw [if_neg h10]
      simp

theorem natDigitsAux_foldl {fuel n : Nat} (h : n < fuel) (acc : Nat) :
    List.foldl (fun a c => a * 10 + dval c) acc (natDigitsAux fuel n) =
      acc * 10 ^ (natDigitsAux fuel n).length + n := by
  induction fuel generalizing n acc with
  | zero => omega
  | succ fuel ih =>
    unfold natDigitsAux
    by_cases h10 : n < 10
    · rw [if_pos h10]
      have : dval (digitChar n) = n := by interval_cases n <;> decide
      simp [this]
    · rw [if_neg h10]
      rw [List.foldl_append, ih (n := n / 10) (by omega)]
      have hd : dval (digitChar (n % 10)) = n % 10 := by
        have hlt : n % 10 < 10 := Nat.mod_lt _ (by omega)
        set m := n % 10 with hm
        interval_cases m <;> decide
      simp only [List.foldl_cons, List.foldl_nil, List.length_append,
        List.length_cons, List.length_nil, hd]
      have hmod : 10 * (n / 10) + n % 10 = n := Nat.div_add_mod n 10
      have hpow : 10 ^ ((natDigitsAux fuel (n / 10)).length + (0 + 1)) =
          10 ^ (natDigitsAux fuel (n / 10)).length * 10 := by
        rw [Nat.zero_add, pow_succ]
      rw [hpow]
      ring_nf
      omega

theorem parseNat1_natDigits (n : Nat) (rest : List Char)
    (hrest : digitFree rest = true) :
    parseNat1 (natDigits n ++ rest) = some (n, rest) := by
  have hlt : n < n + 1 := Nat.lt_succ_self n
  have hdig := natDigitsAux_digits hlt
  have hfold := natDigitsAux_foldl hlt
  unfold natDigits
  rcases hne : natDigitsAux (n + 1) n with _ | ⟨c, ds⟩
  · exact absurd hne (natDigitsAux_ne_nil hlt)
  · rw [hne] at hdig hfold
    have hc := charToDigit?_eq_some (hdig c (by simp))
    simp only [List.cons_append, parseNat1, hc]
    rw [takeDigits_spec ds (fun x hx => hdig x (by simp [hx])) rest hrest]
    have := hfold 0
    simp only [List.foldl_cons, Nat.zero_mul, Nat.zero_add] at this
    rw [this]

theorem dropLit_append (pfx rest : List Char) :
    dropLit pfx (pfx ++ rest) = some rest := by
  induction pfx with
  | nil => rfl
  | cons p ps ih => simp [dropLit, ih]

theorem parseStringBody_escape (s : List Char) (rest : List Char) :
    parseStringBody (escapeChars s ++ '"' :: rest) = some (s, rest) := by
  induction s with
  | nil =>
    simp only [escapeChars, List.map_nil, List.flatten_nil, List.nil_append]
    unfold parseStringBody
    rw [if_pos rfl]
  | cons c cs ih =>
    have hesc : escapeChars (c :: cs) = escapeChar c ++ escapeChars cs := by
      simp [escapeChars]
    rw [hesc]
    by_cases hc : c = '"' ∨ c = '\\'
    · have he : escapeChar c = ['\\', c] := if_pos hc
      rw [he]
      have hcq : unescapeChar c = c := by
        rcases hc with rfl | rfl <;> decide
      simp only [List.cons_append, List.nil_append]
      unfold parseStringBody
      rw [if_neg (by decide : ¬ ('\\' : Char) = '"'), if_pos rfl]
      simp only [ih, hcq]
    · have he : escapeChar c = [c] := if_neg hc
      rw [he]
      push_neg at hc
      simp only [List.cons_append, List.nil_append]
      unfold parseStringBody
      rw [if_neg hc.1, if_neg hc.2]
      simp only [ih]

theorem digit_head_ne {c : Char} (h : (charToDigit? c).isSome) :
    c ≠ 'n' ∧ c ≠ 't' ∧ c ≠ 'f' ∧ c ≠ '"' ∧ c ≠ '-' ∧ c ≠ ']' ∧ c ≠ '}' ∧
      c ≠ '[' ∧ c ≠ '{' := by
  refine ⟨?_, ?_, ?_, ?_, ?_, ?_, ?_, ?_, ?_⟩ <;> rintro rfl <;>
    exact absurd h (by decide)

theorem printJson_head (v : Json) :
    ∃ c cs, printJson v = c :: cs ∧ c ≠ ']' ∧ c ≠ '}' := by
  cases v with
  | null =>
    exact ⟨'n', ['u', 'l', 'l'], by simp [printJson, nullLit],
      by decide, by decide⟩
  | bool b =>
    cases b with
    | false =>
      exact ⟨'f', ['a', 'l', 's', 'e'], by simp [printJson, falseLit],
        by decide, by decide⟩
    | true =>
      exact ⟨'t', ['r', 'u', 'e'], by simp [printJson, trueLit],
        by decide, by decide⟩
  | num n =>
    cases n with
    | ofNat m =>
      rcases hne : natDigitsAux (m + 1) m with _ | ⟨c, ds⟩
      · exact absurd hne (natDigitsAux_ne_nil (Nat.lt_succ_self m))
      · have hdig := natDigitsAux_digits (Nat.lt_succ_self m)
        rw [hne] at hdig
        have h9 := digit_head_ne (hdig c (by simp))
        exact ⟨c, ds, by simp [printJson, intChars, natDigits, hne],
          h9.2.2.2.2.2.1, h9.2.2.2.2.2.2.1⟩
    | negSucc m =>
      exact ⟨'-', natDigits (m + 1), by simp [printJson, intChars],
        by decide, by decide⟩
  | str s =>
    exact ⟨'"', escapeChars s.data ++ ['"'], by simp [printJson],
      by decide, by decide⟩
  | arr es =>
    exact ⟨'[', printArr es ++ [']'], by simp [printJson], by decide, by decide⟩
  | obj ms =>
    exact ⟨'{', printObj ms ++ ['}'], by simp [printJson], by decide, by decide⟩

theorem printArr_head (v : Json) (tl : JsonArr) :
    ∃ c cs, printArr (.cons v tl) = c :: cs ∧ c ≠ ']' ∧ c ≠ '}' := by
  obtain ⟨c, cs, heq, h1, h2⟩ := printJson_head v
  cases tl with
  | nil => exact ⟨c, cs, by simp [printArr, heq], h1, h2⟩
  | cons w tl =>
    exact ⟨c, cs ++ ',' :: printArr (.cons w tl),
      by simp [printArr, heq], h1, h2⟩

theorem digitFree_cons {c : Char} (h : charToDigit? c = none) (X : List Char) :
    digitFree (c :: X) = true := by simp [digitFree, h]


end EasyFirebase

namespace EasyFirebase

mutual
theorem parseValue_print : ∀ (j : Json) (fuel : Nat), weight j ≤ fuel →
    ∀ rest, digitFree rest = true →
    parseValue fuel (printJson j ++ rest) = some (j, rest)
  | .null, fuel, hw, rest, hrest => by
    obtain ⟨f, rfl⟩ : ∃ f, fuel = f + 1 :=
      ⟨fuel - 1, by simp [weight] at hw; omega⟩
    simp only [printJson, nullLit, List.cons_append, List.nil_append]
    rw [parseValue_succ]
    simp [parseValueStep, dropLit]
  | .bool true, fuel, hw, rest, hrest => by
    obtain ⟨f, rfl⟩ : ∃ f, fuel = f + 1 :=
      ⟨fuel - 1, by simp [weight] at hw; omega⟩
    simp only [printJson, trueLit, List.cons_append, List.nil_append]
    rw [parseValue_succ]
    simp [parseValueStep, dropLit]
  | .bool false, fuel, hw, rest, hrest => by
    obtain ⟨f, rfl⟩ : ∃ f, fuel = f + 1 :=
      ⟨fuel - 1, by simp [weight] at hw; omega⟩
    simp only [printJson, falseLit, List.cons_append, List.nil_append]
    rw [parseValue_succ]
    simp [parseValueStep, dropLit]
  | .num (.ofNat m), fuel, hw, rest, hrest => by
    obtain ⟨f, rfl⟩ : ∃ f, fuel = f + 1 :=
      ⟨fuel - 1, by simp [weight] at hw; omega⟩
    rcases hne : natDigitsAux (m + 1) m with _ | ⟨c, ds⟩
    · exact absurd hne (natDigitsAux_ne_nil (Nat.lt_succ_self m))
    · have hdig := natDigitsAux_digits (Nat.lt_succ_self m)
      rw [hne] at hdig
      have hcs := hdig c (by simp)
      obtain ⟨h1, h2, h3, h4, h5, _⟩ := digit_head_ne hcs
      have hprint : printJson (.num (.ofNat m)) = c :: ds := by
        simp [printJson, intChars, natDigits, hne]
      rw [hprint, List.cons_append, parseValue_succ]
      simp only [parseValueStep]
      rw [if_neg h1, if_neg h2, if_neg h3, if_neg h4, if_neg h5, if_pos hcs]
      have hin : c :: (ds ++ rest) = natDigits m ++ rest := by
        simp [natDigits, hne]
      rw [hin, parseNat1_natDigits m rest hrest]
      rfl
  | .num (.negSucc m), fuel, hw, rest, hrest => by
    obtain ⟨f, rfl⟩ : ∃ f, fuel = f + 1 :=
      ⟨fuel - 1, by simp [weight] at hw; omega⟩
    have hprint : printJson (.num (.negSucc m)) = '-' :: natDigits (m + 1) := by
      simp [printJson, intChars]
    rw [hprint, List.cons_append, parseValue_succ]
    simp only [parseValueStep]
    rw [if_neg (by decide : ¬ ('-' : Char) = 'n'),
      if_neg (by decide : ¬ ('-' : Char) = 't'),
      if_neg (by decide : ¬ ('-' : Char) = 'f'),
      if_neg (by decide : ¬ ('-' : Char) = '"'), if_pos True.intro]
    rw [parseNat1_natDigits (m + 1) rest hrest]
    have hval : (-(((m + 1 : Nat) : Int))) = Int.negSucc m := by
      rw [Int.negSucc_eq]
      push_cast
      ring
    dsimp only
    rw [hval]
  | .str s, fuel, hw, rest, hrest => by
    obtain ⟨f, rfl⟩ : ∃ f, fuel = f + 1 :=
      ⟨fuel - 1, by simp [weight] at hw; omega⟩
    have hprint : printJson (.str s) = '"' :: (escapeChars s.data ++ ['"']) := by
      simp [printJson]
    rw [hprint, List.cons_append, List.append_assoc, List.singleton_append,
      parseValue_succ]
    simp only [parseValueStep]
    rw [if_neg (by decide : ¬ ('"' : Char) = 'n'),
      if_neg (by decide : ¬ ('"' : Char) = 't'),
      if_neg (by decide : ¬ ('"' : Char) = 'f'), if_pos True.intro]
    rw [parseStringBody_escape s.data rest]
  | .arr .nil, fuel, hw, rest, hrest => by
    obtain ⟨f, rfl⟩ : ∃ f, fuel = f + 1 :=
      ⟨fuel - 1, by simp [weight] at hw; omega⟩
    have hprint : printJson (.arr .nil) = ['[', ']'] := by
      simp [printJson, printArr]
    rw [hprint]
    simp only [List.cons_append, List.nil_append]
    rw [parseValue_succ]
    simp only [parseValueStep]
    rw [if_neg (by decide : ¬ ('[' : Char) = 'n'),
      if_neg (by decide : ¬ ('[' : Char) = 't'),
      if_neg (by decide : ¬ ('[' : Char) = 'f'),
      if_neg (by decide : ¬ ('[' : Char) = '"'),
      if_neg (by decide : ¬ ('[' : Char) = '-'),
      if_neg (by decide : (charToDigit? '[').isSome ≠ true),
      if_pos True.intro]
    simp
  | .arr (.cons v tl), fuel, hw, rest, hrest => by
    obtain ⟨f, rfl⟩ : ∃ f, fuel = f + 1 :=
      ⟨fuel - 1, by simp [weight] at hw; omega⟩
    have hw2 : weightArr (.cons v tl) ≤ f := by
      rw [weight] at hw; omega
    obtain ⟨c, cs, hpa, hc1, hc2⟩ := printArr_head v tl
    have hprint : printJson (.arr (.cons v tl)) =
        '[' :: (printArr (.cons v tl) ++ [']']) := by simp [printJson]
    rw [hprint, List.cons_append, List.append_assoc, List.singleton_append,
      parseValue_succ]
    simp only [parseValueStep]
    rw [if_neg (by decide : ¬ ('[' : Char) = 'n'),
      if_neg (by decide : ¬ ('[' : Char) = 't'),
      if_neg (by decide : ¬ ('[' : Char) = 'f'),
      if_neg (by decide : ¬ ('[' : Char) = '"'),
      if_neg (by decide : ¬ ('[' : Char) = '-'),
      if_neg (by decide : (charToDigit? '[').isSome ≠ true),
      if_pos True.intro]
    rw [hpa, List.cons_append]
    dsimp only
    rw [if_neg hc1]
    have hback : c :: (cs ++ ']' :: rest) =
        printArr (.cons v tl) ++ ']' :: rest := by
      rw [hpa]; simp
    rw [hback, parseElems_print v tl f hw2 rest]
  | .obj .nil, fuel, hw, rest, hrest => by
    obtain ⟨f, rfl⟩ : ∃ f, fuel = f + 1 :=
      ⟨fuel - 1, by simp [weight] at hw; omega⟩
    have hprint : printJson (.obj .nil) = ['{', '}'] := by
      simp [printJson, printObj]
    rw [hprint]
    simp only [List.cons_append, List.nil_append]
    rw [parseValue_succ]
    simp only [parseValueStep]
    rw [if_neg (by decide : ¬ ('{' : Char) = 'n'),
      if_neg (by decide : ¬ ('{' : Char) = 't'),
      if_neg (by decide : ¬ ('{' : Char) = 'f'),
      if_neg (by decide : ¬ ('{' : Char) = '"'),
      if_neg (by decide : ¬ ('{' : Char) = '-'),
      if_neg (by decide : (charToDigit? '{').isSome ≠ true),
      if_neg (by decide : ¬ ('{' : Char) = '['), if_pos True.intro]
    simp
  | .obj (.cons k v tl), fuel, hw, rest, hrest => by
    obtain ⟨f, rfl⟩ : ∃ f, fuel = f + 1 :=
      ⟨fuel - 1, by simp [weight] at hw; omega⟩
    have hw2 : weightObj (.cons k v tl) ≤ f := by
      rw [weight] at hw; omega
    obtain ⟨cs0, hpo⟩ : ∃ cs0, printObj (.cons k v tl) = '"' :: cs0 := by
      cases tl with
      | nil =>
        exact ⟨escapeChars k.data ++ '"' :: ':' :: printJson v,
          by simp [printObj]⟩
      | cons k2 v2 tl2 =>
        exact ⟨(escapeChars k.data ++ '"' :: ':' :: printJson v) ++
          ',' :: printObj (.cons k2 v2 tl2), by simp [printObj]⟩
    have hprint : printJson (.obj (.cons k v tl)) =
        '{' :: (printObj (.cons k v tl) ++ ['}']) := by simp [printJson]
    rw [hprint, List.cons_append, List.append_assoc, List.singleton_append,
      parseValue_succ]
    simp only [parseValueStep]
    rw [if_neg (by decide : ¬ ('{' : Char) = 'n'),
      if_neg (by decide : ¬ ('{' : Char) = 't'),
      if_neg (by decide : ¬ ('{' : Char) = 'f'),
      if_neg (by decide : ¬ ('{' : Char) = '"'),
      if_neg (by decide : ¬ ('{' : Char) = '-'),
      if_neg (by decide : (charToDigit? '{').isSome ≠ true),
      if_neg (by decide : ¬ ('{' : Char) = '['), if_pos True.intro]
    rw [hpo, List.cons_append]
    dsimp only
    rw [if_neg (by decide : ¬ ('"' : Char) = '}')]
    have hback : '"' :: (cs0 ++ '}' :: rest) =
        printObj (.cons k v tl) ++ '}' :: rest := by
      rw [hpo]; simp
    rw [hback, parseMembers_print k v tl f hw2 rest]
termination_by j fuel hw rest hrest => sizeOf j
theorem parseElems_print : ∀ (v : Json) (tl : JsonArr) (fuel : Nat),
    weightArr (.cons v tl) ≤ fuel → ∀ rest,
    parseElems fuel (printArr (.cons v tl) ++ ']' :: rest) =
      some (.cons v tl, rest)
  | v, .nil, fuel, hw, rest => by
    obtain ⟨f, rfl⟩ : ∃ f, fuel = f + 1 :=
      ⟨fuel - 1, by simp [weightArr] at hw; omega⟩
    have hwv : weight v ≤ f := by
      simp [weightArr] at hw; omega
    have hpA : printArr (.cons v .nil) = printJson v := by simp [printArr]
    rw [hpA, parseElems_succ]
    simp only [parseElemsStep]
    rw [parseValue_print v f hwv (']' :: rest) (digitFree_cons (by decide) _)]
    dsimp only
    rw [if_neg (by decide : ¬ (']' : Char) = ','), if_pos rfl]
  | v, .cons w tl, fuel, hw, rest => by
    obtain ⟨f, rfl⟩ : ∃ f, fuel = f + 1 :=
      ⟨fuel - 1, by rw [weightArr] at hw; omega⟩
    rw [weightArr] at hw
    have hmab : max (weight v) (weightArr (.cons w tl)) ≤ f := by omega
    have hab := Nat.max_le.mp hmab
    have hpA : printArr (.cons v (.cons w tl)) =
        printJson v ++ ',' :: printArr (.cons w tl) := by simp [printArr]
    rw [hpA, List.append_assoc, List.cons_append, parseElems_succ]
    simp only [parseElemsStep]
    rw [parseValue_print v f hab.1
      (',' :: (printArr (.cons w tl) ++ ']' :: rest))
      (digitFree_cons (by decide) _)]
    dsimp only
    rw [if_pos rfl, parseElems_print w tl f hab.2 rest]
termination_by v tl fuel hw rest => sizeOf (JsonArr.cons v tl)
theorem parseMembers_print : ∀ (k : String) (v : Json) (tl : JsonObj)
    (fuel : Nat), weightObj (.cons k v tl) ≤ fuel → ∀ rest,
    parseMembers fuel (printObj (.cons k v tl) ++ '}' :: rest) =
      some (.cons k v tl, rest)
  | k, v, .nil, fuel, hw, rest => by
    obtain ⟨f, rfl⟩ : ∃ f, fuel = f + 1 :=
      ⟨fuel - 1, by simp [weightObj] at hw; omega⟩
    have hwv : weight v ≤ f := by
      simp [weightObj] at hw; omega
    have hpO : printObj (.cons k v .nil) =
        '"' :: (escapeChars k.data ++ '"' :: ':' :: printJson v) := by
      simp [printObj]
    rw [hpO, List.cons_append, parseMembers_succ]
    simp only [parseMembersStep]
    rw [if_pos True.intro]
    try simp only [List.append_assoc, List.cons_append]
    rw [parseStringBody_escape k.data (':' :: (printJson v ++ '}' :: rest))]
    dsimp only
    rw [if_pos rfl,
      parseValue_print v f hwv ('}' :: rest) (digitFree_cons (by decide) _)]
    dsimp only
    rw [if_neg (by decide : ¬ ('}' : Char) = ','), if_pos rfl]
  | k, v, .cons k2 v2 tl, fuel, hw, rest => by
    obtain ⟨f, rfl⟩ : ∃ f, fuel = f + 1 :=
      ⟨fuel - 1, by rw [weightObj] at hw; omega⟩
    rw [weightObj] at hw
    have hmab : max (weight v) (weightObj (.cons k2 v2 tl)) ≤ f := by omega
    have hab := Nat.max_le.mp hmab
    have hpO : printObj (.cons k v (.cons k2 v2 tl)) =
        ('"' :: (escapeChars k.data ++ '"' :: ':' :: printJson v)) ++
          ',' :: printObj (.cons k2 v2 tl) := by simp [printObj]
    rw [hpO, parseMembers_succ]
    simp only [List.cons_append, List.append_assoc, parseMembersStep]
    rw [if_pos True.intro]
    rw [parseStringBody_escape k.data
      (':' :: (printJson v ++ ',' :: (printObj (.cons k2 v2 tl) ++ '}' :: rest)))]
    dsimp only
    rw [if_pos rfl,
      parseValue_print v f hab.1
        (',' :: (printObj (.cons k2 v2 tl) ++ '}' :: rest))
        (digitFree_cons (by decide) _)]
    dsimp only
    rw [if_pos rfl, parseMembers_print k2 v2 tl f hab.2 rest]
termination_by k v tl fuel hw rest => sizeOf (JsonObj.cons k v tl)
end

theorem natDigits_length_pos (n : Nat) : 1 ≤ (natDigits n).length := by
  have hne := natDigitsAux_ne_nil (Nat.lt_succ_self n)
  unfold natDigits
  rcases h : natDigitsAux (n + 1) n with _ | ⟨c, cs⟩
  · exact absurd h hne
  · simp

mutual
theorem weight_le_printJson : ∀ j : Json, weight j ≤ (printJson j).length
  | .null => by simp [weight, printJson, nullLit]
  | .bool true => by simp [weight, printJson, trueLit]
  | .bool false => by simp [weight, printJson, falseLit]
  | .num (.ofNat m) => by
    simp only [weight, printJson, intChars]
    exact natDigits_length_pos m
  | .num (.negSucc m) => by
    simp [weight, printJson, intChars]
  | .str s => by simp [weight, printJson]
  | .arr es => by
    have h := weightArr_le_printArr es
    simp only [weight, printJson, List.length_cons, List.length_append]
    omega
  | .obj ms => by
    have h := weightObj_le_printObj ms
    simp only [weight, printJson, List.length_cons, List.length_append]
    omega
theorem weightArr_le_printArr : ∀ es : JsonArr,
    weightArr es ≤ (printArr es).length + 1
  | .nil => by simp [weightArr, printArr]
  | .cons v .nil => by
    have h := weight_le_printJson v
    simp only [weightArr, weightArr.eq_1, printArr]
    have hm : max (weight v) (weightArr .nil) ≤ (printJson v).length := by
      refine max_le h ?_
      simp [weightArr]
    omega
  | .cons v (.cons w tl) => by
    have h1 := weight_le_printJson v
    have h2 := weightArr_le_printArr (.cons w tl)
    have hgw : weightArr (.cons v (.cons w tl)) =
        1 + max (weight v) (weightArr (.cons w tl)) := by rw [weightArr]
    have hgp : printArr (.cons v (.cons w tl)) =
        printJson v ++ ',' :: printArr (.cons w tl) := by rw [printArr]
    rw [hgw, hgp]
    simp only [List.length_append, List.length_cons]
    have hm : max (weight v) (weightArr (.cons w tl)) ≤
        (printJson v).length + (printArr (.cons w tl)).length + 1 :=
      max_le (by omega) (by omega)
    omega
theorem weightObj_le_printObj : ∀ ms : JsonObj,
    weightObj ms ≤ (printObj ms).length + 1
  | .nil => by simp [weightObj, printObj]
  | .cons k v .nil => by
    have h := weight_le_printJson v
    simp only [weightObj, printObj, List.length_cons, List.length_append]
    have hm : max (weight v) (weightObj .nil) ≤ (printJson v).length := by
      refine max_le h ?_
      simp [weightObj]
    omega
  | .cons k v (.cons k2 v2 tl) => by
    have h1 := weight_le_printJson v
    have h2 := weightObj_le_printObj (.cons k2 v2 tl)
    have hgw : weightObj (.cons k v (.cons k2 v2 tl)) =
        1 + max (weight v) (weightObj (.cons k2 v2 tl)) := by rw [weightObj]
    have hgp : printObj (.cons k v (.cons k2 v2 tl)) =
        ('"' :: (escapeChars k.data ++ '"' :: ':' :: printJson v)) ++
          ',' :: printObj (.cons k2 v2 tl) := by rw [printObj]
    rw [hgw, hgp]
    simp only [List.length_append, List.length_cons]
    have hm : max (weight v) (weightObj (.cons k2 v2 tl)) ≤
        (printJson v).length + (printObj (.cons k2 v2 tl)).length + 1 :=
      max_le (by omega) (by omega)
    omega
end

/-- `JSON.parse ∘ JSON.stringify` is the identity on JSON values (in this
model: integer numerals, compact printing). -/
theorem jsonParse_printJson (j : Json) : jsonParse (printJson j) = some j := by
  unfold jsonParse
  have hw : weight j ≤ (printJson j).length + 1 :=
    le_trans (weight_le_printJson j) (by omega)
  have h := parseValue_print j ((printJson j).length + 1) hw [] rfl
  rw [List.append_nil] at h
  rw [h]

/-! ## Retry lemmas -/

/-- A permanently failing retryable call: the loop burns its whole budget,
surfaces the error of the last attempt, and sleeps once per non-final
attempt. -/
theorem retryGo_allFail {A : Type} (errs : Nat → FunctionsError)
    (hret : ∀ k, (errs k).code ∉ nonRetryableCodes) :
    ∀ remaining attempt,
      retryGo (A := A) (fun k => .err (errs k)) remaining attempt =
        ⟨.err (errs (attempt + remaining)), remaining + 1,
         (List.range remaining).map (fun i => backoffTime (attempt + i))⟩ := by
  intro remaining
  induction remaining with
  | zero =>
    intro attempt
    unfold retryGo
    simp [hret attempt]
  | succ r ih =>
    intro attempt
    unfold retryGo
    simp only [if_neg (hret attempt)]
    rw [ih (attempt + 1)]
    have harith : attempt + 1 + r = attempt + (r + 1) := by omega
    rw [harith]
    refine congrArg (RetryTrace.mk _ _) ?_
    rw [List.range_succ_eq_map, List.map_cons, List.map_map, Nat.add_zero]
    refine congrArg (List.cons _) (List.map_congr_left ?_)
    intro i _
    simp only [Function.comp_apply]
    exact congrArg backoffTime (by omega)

/-! ## Claim theorems -/

/-- C1: for every error whose code is in the fixed non-retryable set and for
every configured `maxRetries` (per-call and service-level), a first attempt
failing with that error makes `callFunctionWithRetry` perform exactly one
underlying attempt, rethrow that error, and await no backoff delay. -/
theorem nonretryable_single_attempt {A : Type} (call : Nat → FnOutcome A)
    (optMR cfgMR : Option Nat) (e : FunctionsError)
    (hcall : call 0 = .err e) (hcode : e.code ∈ nonRetryableCodes) :
    callFunctionWithRetry call optMR cfgMR = ⟨.err e, 1, []⟩ := by
  unfold callFunctionWithRetry retryGo
  rw [hcall]
  simp [hcode]

/-- Witness for C1: a `permission-denied` failure with `maxRetries = 5` is
attempted once and rethrown with no delay. -/
theorem nonretryable_single_attempt_witness :
    (fun _ => FnOutcome.err (A := Unit) ⟨"denied", "permission-denied"⟩) 0 =
        .err ⟨"denied", "permission-denied"⟩ ∧
      "permission-denied" ∈ nonRetryableCodes ∧
      callFunctionWithRetry (A := Unit)
        (fun _ => .err ⟨"denied", "permission-denied"⟩) (some 5) none =
        ⟨.err ⟨"denied", "permission-denied"⟩, 1, []⟩ :=
  ⟨rfl, by decide,
    nonretryable_single_attempt _ (some 5) none ⟨"denied", "permission-denied"⟩
      rfl (by decide)⟩

/-- C2 counterexample: with configured `maxRetries = 0` (`N = 0`) and a
permanently failing retryable call, the code performs `4` attempts — not
`N + 1 = 1` — because `options?.maxRetries || this.config.maxRetries || 3`
treats `0` as falsy and falls back to the default `3`. -/
theorem retry_zero_budget_counterexample :
    (callFunctionWithRetry (A := Unit) (fun _ => .err ⟨"boom", "internal"⟩)
        (some 0) none).attempts = 4 ∧ (4 : Nat) ≠ 0 + 1 := by
  decide

/-- C2 (amended to `N ≥ 1`): for every configured `maxRetries = N ≥ 1` —
whether set per-call or in the service config — and a call failing on every
attempt with a retryable error, `callFunctionWithRetry` attempts the call
exactly `N + 1` times, awaits `min(1000·2^k, 10000)` milliseconds after the
`k`-th failed attempt for `k < N`, with the delays strictly increasing
while below the 10-second cap, and surfaces the last attempt's error. -/
theorem retry_exhausts_attempts {A : Type} (N : Nat) (hN : 1 ≤ N)
    (cfgMR : Option Nat) (errs : Nat → FunctionsError)
    (hret : ∀ k, (errs k).code ∉ nonRetryableCodes) :
    (callFunctionWithRetry (A := A) (fun k => .err (errs k)) (some N) cfgMR =
        ⟨.err (errs N), N + 1, (List.range N).map backoffTime⟩ ∧
      callFunctionWithRetry (A := A) (fun k => .err (errs k)) none (some N) =
        ⟨.err (errs N), N + 1, (List.range N).map backoffTime⟩) ∧
      (∀ k, backoffTime k = min (1000 * 2 ^ k) 10000) ∧
      (∀ k, backoffTime k ≤ 10000) ∧
      (∀ k, backoffTime k < 10000 → backoffTime k < backoffTime (k + 1)) := by
  have hN0 : ¬ N = 0 := by omega
  refine ⟨⟨?_, ?_⟩, fun k => rfl, fun k => Nat.min_le_right _ _, ?_⟩
  · have hEff : effectiveMaxRetries (some N) cfgMR = N := by
      simp [effectiveMaxRetries, jsOrNat, hN0]
    unfold callFunctionWithRetry
    rw [hEff, retryGo_allFail errs hret N 0]
    simp
  · have hEff : effectiveMaxRetries none (some N) = N := by
      simp [effectiveMaxRetries, jsOrNat, hN0]
    unfold callFunctionWithRetry
    rw [hEff, retryGo_allFail errs hret N 0]
    simp
  · intro k hk
    have h2 : 1000 * 2 ^ k < 10000 := by
      by_contra hc
      push_neg at hc
      simp [backoffTime, Nat.min_eq_right hc] at hk
    have hpow : (2 : Nat) ^ (k + 1) = 2 * 2 ^ k := by
      rw [pow_succ]; ring
    have hpos : 0 < (2 : Nat) ^ k := pow_pos (by omega) k
    have hlt : 1000 * 2 ^ k < 1000 * 2 ^ (k + 1) := by omega
    have hbk : backoffTime k = 1000 * 2 ^ k := Nat.min_eq_left (le_of_lt h2)
    rw [hbk]
    exact lt_min hlt h2

/-- Witness for C2's amended theorem: `N = 3` with a permanently failing
`internal` error gives 4 attempts and delays `[1000, 2000, 4000]`. -/
theorem retry_exhausts_attempts_witness :
    ((1 : Nat) ≤ 3 ∧
        (FunctionsError.mk "boom" "internal").code ∉ nonRetryableCodes) ∧
      callFunctionWithRetry (A := Unit)
        (fun _ => .err (FunctionsError.mk "boom" "internal"))
        (some 3) none =
        ⟨.err ⟨"boom", "internal"⟩, 3 + 1,
         (List.range 3).map backoffTime⟩ :=
  ⟨⟨by decide, by decide⟩,
    (retry_exhausts_attempts (A := Unit) 3 (by decide) none
      (fun _ => FunctionsError.mk "boom" "internal")
      (fun _ =>
        (by decide :
          (FunctionsError.mk "boom" "internal").code ∉
            nonRetryableCodes))).1.1⟩

/-- C3: the code violates the zero-retry policy. A configuration with
`maxRetries = 0` (here: at the service-config level, with no per-call
override) performs `4` underlying attempts with backoff delays
`[1000, 2000, 4000]`, because the JavaScript `||` defaulting chain
`options?.maxRetries || this.config.maxRetries || 3` treats the configured
`0` as falsy and substitutes the default `3`. The spec requires exactly one
attempt and no delay. -/
theorem retry_config_zero_four_attempts :
    callFunctionWithRetry (A := Unit) (fun _ => .err ⟨"boom", "unavailable"⟩)
        none (some 0) =
      ⟨.err ⟨"boom", "unavailable"⟩, 4, [1000, 2000, 4000]⟩ := by
  decide


/-- C4 counterexample: a handler that throws while processing the valid JSON
message `{}` leads to `nack()` being called twice — once by the inner catch
and once more by the outer catch after the rethrow — not exactly once as
claimed. -/
theorem handler_failure_double_nack_counterexample :
    Typed.messageHandler "{}".data false (fun _ => .fail) =
        ⟨0, 2, true, true, false⟩ ∧ (2 : Nat) ≠ 1 := by
  exact ⟨by decide, by decide⟩

/-- C4 (amended): for every delivered message that parses as JSON and whose
handler fails (throw, rejection, or processing timeout), `ack()` is never
called, `nack()` is called twice (inner catch, then outer catch after the
rethrow), the failure is logged, and nothing is rethrown into the
transport's event mechanism. -/
theorem handler_failure_effects (data : List Char) (v : Json)
    (hparse : jsonParse data = some v) (autoAck : Bool)
    (handler : Json → Typed.HandlerResult) (hfail : handler v = .fail) :
    Typed.messageHandler data autoAck handler = ⟨0, 2, true, true, false⟩ := by
  unfold Typed.messageHandler
  rw [hparse]
  dsimp only
  rw [hfail]

/-- Witness for C4's amended theorem: a failing handler on message `{}`. -/
theorem handler_failure_effects_witness :
    jsonParse "{}".data = some (.obj .nil) ∧
      Typed.messageHandler "{}".data true (fun _ => .fail) =
        ⟨0, 2, true, true, false⟩ :=
  ⟨by decide,
    handler_failure_effects "{}".data (.obj .nil) (by decide) true
      (fun _ => .fail) rfl⟩

/-- C5: when the transport rejects creation with an `ALREADY_EXISTS` error,
`createTopic` and `createSubscription` return a handle to the existing
resource without throwing; every other creation failure is rethrown as a
wrapped `PubSubError`. -/
theorem already_exists_idempotent (tn sn : String) (isErr : Bool)
    (msg : String) :
    (isErr = true → Typed.containsAlreadyExists msg = true →
      Typed.createTopic tn (.threw isErr msg) = .ok ⟨tn⟩ ∧
        Typed.createSubscription tn sn (.threw isErr msg) = .ok ⟨sn⟩) ∧
    ((isErr && Typed.containsAlreadyExists msg) = false →
      Typed.createTopic tn (.threw isErr msg) =
          .error ⟨s!"Failed to create topic {tn}",
            "topic-creation-failed", isErr⟩ ∧
        Typed.createSubscription tn sn (.threw isErr msg) =
          .error
            ⟨s!"Failed to create subscription {sn} for topic {tn}",
             "subscription-creation-failed", isErr⟩) := by
  constructor
  · intro h1 h2
    constructor <;>
      simp [Typed.createTopic, Typed.createSubscription, h1, h2]
  · intro h
    constructor <;>
      simp [Typed.createTopic, Typed.createSubscription, h]

/-- Witness for C5: an `ALREADY_EXISTS` rejection yields the existing handle;
an unrelated failure is rethrown wrapped. -/
theorem already_exists_idempotent_witness :
    Typed.createTopic "t"
        (.threw true "6 ALREADY_EXISTS: Topic already exists") = .ok ⟨"t"⟩ ∧
      Typed.createSubscription "t" "s" (.threw false "network failure") =
        .error ⟨"Failed to create subscription s for topic t",
          "subscription-creation-failed", false⟩ :=
  ⟨((already_exists_idempotent "t" "s" true
      "6 ALREADY_EXISTS: Topic already exists").1 rfl (by decide)).1,
   ((already_exists_idempotent "t" "s" false "network failure").2
      (by decide)).2⟩

/-- C6: publishing a JSON-serializable payload object through the untyped
`publishMessage` (JSON-stringify to bytes) and decoding the delivered bytes
through `parseMessageData` (JSON parse with string fallback) yields a value
deeply equal to the original payload. -/
theorem publish_parse_roundtrip (j : Json) :
    Untyped.parseMessageData (Untyped.publishMessageData (.obj j)) =
      .json j := by
  unfold Untyped.publishMessageData Untyped.parseMessageData
  rw [jsonParse_printJson]

/-- C7 counterexample: on the payload `"plain text message"` the typed
`subscribeToTopic` deserialization path does not return the original
string — `JSON.parse` fails, the handler is never invoked, and the message
is logged and nacked — while `parseMessageData` does fall back to the raw
string. The claim's "for each path that deserializes delivered messages" is
therefore false. -/
theorem nonjson_typed_path_counterexample :
    jsonParse "plain text message".data = none ∧
      Typed.messageHandler "plain text message".data false (fun _ => .ok) =
        ⟨0, 1, false, true, false⟩ ∧
      Untyped.parseMessageData "plain text message".data =
        .raw "plain text message".data := by
  exact ⟨by decide, by decide, by decide⟩

/-- C7 (amended): for every inbound payload that is not valid JSON,
`parseMessageData` returns the original string unchanged rather than a
parse error; the typed `subscribeToTopic` message path instead treats it as
a parse failure — the handler is never invoked and the message is logged
and nacked. -/
theorem nonjson_payload_fallback (cs : List Char) (h : jsonParse cs = none) :
    Untyped.parseMessageData cs = .raw cs ∧
      ∀ (autoAck : Bool) (handler : Json → Typed.HandlerResult),
        Typed.messageHandler cs autoAck handler =
          ⟨0, 1, false, true, false⟩ := by
  constructor
  · unfold Untyped.parseMessageData
    rw [h]
  · intro autoAck handler
    unfold Typed.messageHandler
    rw [h]

/-- Witness for C7's amended theorem at `"plain text message"`. -/
theorem nonjson_payload_fallback_witness :
    jsonParse "plain text message".data = none ∧
      Untyped.parseMessageData "plain text message".data =
        .raw "plain text message".data :=
  ⟨by decide,
    (nonjson_payload_fallback "plain text message".data (by decide)).1⟩

/-- C8: `unsubscribe(name)` throws a wrapped error when `name` is not in the
active-subscription registry; when it is registered, it removes all
listeners from the stored handle and deletes the registry entry, so an
immediately repeated `unsubscribe(name)` throws. -/
theorem unsubscribe_contract (st : Untyped.PubSubRegistry) (name : String) :
    (st.activeSubscriptions.find? (fun p => p.1 == name) = none →
      Untyped.unsubscribe st name =
        .error ⟨s!"No active subscription named {name} found",
          none, none, true⟩) ∧
    (∀ entry,
      st.activeSubscriptions.find? (fun p => p.1 == name) = some entry →
      Untyped.unsubscribe st name =
          .ok ({ entry.2 with listeners := 0 },
            ⟨st.activeSubscriptions.filter (fun q => !(q.1 == name))⟩) ∧
        Untyped.unsubscribe
            ⟨st.activeSubscriptions.filter (fun q => !(q.1 == name))⟩ name =
          .error ⟨s!"No active subscription named {name} found",
            none, none, true⟩) := by
  constructor
  · intro h
    unfold Untyped.unsubscribe
    rw [h]
  · intro entry h
    constructor
    · unfold Untyped.unsubscribe
      rw [h]
    · unfold Untyped.unsubscribe
      have hnone : (st.activeSubscriptions.filter
          (fun q => !(q.1 == name))).find? (fun p => p.1 == name) = none := by
        rw [List.find?_eq_none]
        intro x hx
        have hmem := List.of_mem_filter hx
        simp only [Bool.not_eq_true'] at hmem
        simp [hmem]
      rw [hnone]

/-- Witness for C8: a one-entry registry; unsubscribing an unknown name
throws; unsubscribing the registered name clears the handle's listeners and
empties the registry. -/
theorem unsubscribe_contract_witness :
    Untyped.unsubscribe ⟨[("s1", ⟨"s1", 2⟩)]⟩ "s2" =
        .error ⟨"No active subscription named s2 found", none, none, true⟩ ∧
      Untyped.unsubscribe ⟨[("s1", ⟨"s1", 2⟩)]⟩ "s1" =
        .ok (⟨"s1", 0⟩, ⟨[]⟩) :=
  ⟨(unsubscribe_contract ⟨[("s1", ⟨"s1", 2⟩)]⟩ "s2").1 (by decide),
   (((unsubscribe_contract ⟨[("s1", ⟨"s1", 2⟩)]⟩ "s1").2
      ("s1", ⟨"s1", 2⟩) (by decide)).1)⟩

/-- C9: after `cleanup()` completes, `isInitialized()` returns `false`, and
each facade getter called after cleanup constructs and returns a new
instance, reference-unequal (fresh allocation id) to the instance returned
before cleanup. -/
theorem cleanup_fresh_instances (st : ManagerState)
    (hwf : managerWF st = true) (f1 g1 p1 f2 g2 p2 : Nat)
    (s1 s2 s3 s4 s5 s6 : ManagerState)
    (h1 : getFirestoreService st = (f1, s1))
    (h2 : getFunctionsService s1 = (g1, s2))
    (h3 : getPubSubService s2 = (p1, s3))
    (h4 : getFirestoreService (cleanup s3) = (f2, s4))
    (h5 : getFunctionsService s4 = (g2, s5))
    (h6 : getPubSubService s5 = (p2, s6)) :
    isInitialized (cleanup s3) = false ∧ f2 ≠ f1 ∧ g2 ≠ g1 ∧ p2 ≠ p1 := by
  obtain ⟨n, fi, fs, fn, ps, init⟩ := st
  cases fs <;> cases fi <;> cases fn <;> cases ps
  all_goals
    simp only [managerWF, Bool.and_eq_true, Option.all_some, Option.all_none,
      decide_eq_true_eq] at hwf
    simp only [getFirestoreService, getFirestore, Prod.mk.injEq] at h1
    obtain ⟨hf1, hs1⟩ := h1
    subst hs1
    simp only [getFunctionsService, Prod.mk.injEq] at h2
    obtain ⟨hg1, hs2⟩ := h2
    subst hs2
    simp only [getPubSubService, Prod.mk.injEq] at h3
    obtain ⟨hp1, hs3⟩ := h3
    subst hs3
    simp only [cleanup, getFirestoreService, getFirestore, Prod.mk.injEq] at h4
    obtain ⟨hf2, hs4⟩ := h4
    subst hs4
    simp only [getFunctionsService, Prod.mk.injEq] at h5
    obtain ⟨hg2, hs5⟩ := h5
    subst hs5
    simp only [getPubSubService, Prod.mk.injEq] at h6
    obtain ⟨hp2, hs6⟩ := h6
    refine ⟨rfl, ?_, ?_, ?_⟩ <;> omega

/-- Witness for C9: the scenario run from a fresh manager. -/
theorem cleanup_fresh_instances_witness :
    managerWF mkFirebaseManager = true ∧
      (isInitialized (cleanup ⟨5, some 1, some 2, some 3, some 4, true⟩) =
          false ∧
        (6 : Nat) ≠ 2 ∧ (7 : Nat) ≠ 3 ∧ (8 : Nat) ≠ 4) :=
  ⟨by decide,
    cleanup_fresh_instances mkFirebaseManager (by decide) 2 3 4 6 7 8
      ⟨3, some 1, some 2, none, none, true⟩
      ⟨4, some 1, some 2, some 3, none, true⟩
      ⟨5, some 1, some 2, some 3, some 4, true⟩
      ⟨7, some 5, some 6, none, none, false⟩
      ⟨8, some 5, some 6, some 7, none, false⟩
      ⟨9, some 5, some 6, some 7, some 8, false⟩
      rfl rfl rfl rfl rfl rfl⟩

/-- C10: the untyped `publishMessage` hands a string payload's bytes to the
transport exactly as-is, with no JSON quoting, while an object payload is
JSON-stringified; consequently the string payload `"123"` — itself valid
JSON text — is returned by `parseMessageData` as the JSON number `123`, not
as the original string. -/
theorem publish_string_unquoted :
    (∀ s : String, Untyped.publishMessageData (.str s) = s.data) ∧
      (∀ j : Json, Untyped.publishMessageData (.obj j) = printJson j) ∧
      Untyped.parseMessageData (Untyped.publishMessageData (.str "123")) =
        .json (.num 123) ∧
      Untyped.Parsed.json (.num 123) ≠ .raw "123".data := by
  refine ⟨fun s => rfl, fun j => rfl, by decide, by decide⟩

end EasyFirebase
